import Mathlib

/-!
Verification of the counter-sequence reconciliation core of the HYUNDAI
diesel-distribution program (`hyundai_distribucion_equipos_v11.py`).

Modelling conventions (shallow embedding):
* Real numbers are modelled as `ℚ`.  Python's `round(x, 2)` is modelled as
  `round2` (half-up rounding of the scaled value); no concrete input used in
  this development hits a half-way tie, so the float tie-breaking rule is
  immaterial.
* `fecha`/`hora` are canonical `YYYY-MM-DD` / `HH:MM` strings used only for
  ordering; lexicographic order on those strings is order-isomorphic to `ℕ`,
  so both are modelled as `ℕ`.
* A DataFrame cell (as produced by `pd.read_sql_query`) is a `Cell`: a valid
  number, Python `None`, a float `NaN` (how pandas renders SQL `NULL` inside
  a numeric column), or a malformed non-numeric value on which `float(...)`
  raises.
* A database row (`Row`) stores `NULL` or a number (`Option ℚ`): SQLite has
  no NaN — binding a float NaN stores `NULL`.
-/

namespace Hyundai

/-- One cell of the DataFrame handed to `aplicar_secuencia_contador`. -/
inductive Cell where
  | num (q : ℚ)
  | null
  | nan
  | bad
  deriving DecidableEq, Repr

/-- A row of the DataFrame (the fields the reconciler reads).  Mirrors the
columns `fecha, hora, id, litros_despachados, contador_inicial,
contador_final` of `distribucion_hyundai_equipos`. -/
structure Rec where
  fecha : ℕ
  hora : ℕ
  id : ℕ
  litros_despachados : Cell
  contador_inicial : Cell
  contador_final : Cell
  deriving DecidableEq, Repr

/-- A row after the calc phase of `aplicar_secuencia_contador`: the original
row plus the two derived columns `contador_inicial_calc` /
`contador_final_calc`.  A calc value of `none` models a float NaN
(arithmetic on a NaN litros value).  The display columns (`*_show`,
`Delta_Litros`, `Secuencia_Contador`) are derived from these and the stored
cells by the function's tail, modelled below as `RecShow` /
`aplicar_secuencia_contador_full`. -/
structure RecOut where
  orig : Rec
  contador_inicial_calc : Option ℚ
  contador_final_calc : Option ℚ
  deriving DecidableEq, Repr

/-- A persisted database row: each REAL column holds `NULL` or a number. -/
structure Row where
  fecha : ℕ
  hora : ℕ
  id : ℕ
  litros_despachados : Option ℚ
  contador_inicial : Option ℚ
  contador_final : Option ℚ
  deriving DecidableEq, Repr

/-- Python's `round(x, 2)`. -/
def round2 (q : ℚ) : ℚ := (Int.floor (q * 100 + 1 / 2) : ℚ) / 100

/-- `round(x, 2)` lifted to NaN-or-number (`round` of NaN is NaN). -/
def nround2 : Option ℚ → Option ℚ
  | none => none
  | some q => some (round2 q)

/-- Addition on NaN-or-number (NaN is absorbing). -/
def nadd : Option ℚ → Option ℚ → Option ℚ
  | some a, some b => some (a + b)
  | _, _ => none

/-- The guarded parse of a stored meter cell in `aplicar_secuencia_contador`:
`if ci is not None and str(ci) != 'nan': ci_valid = float(ci)` inside
`try/except`.  `None`, NaN and malformed values all yield "absent". -/
def toValid : Cell → Option ℚ
  | .num q => some q
  | .null => none
  | .nan => none
  | .bad => none

/-- The parse of `litros_despachados`: `float(litros)` inside `try/except`
defaulting to `0.0`.  `float(None)` and `float("garbage")` raise (→ `0.0`),
but `float(nan)` succeeds and the NaN (`none`) propagates. -/
def toLitros : Cell → Option ℚ
  | .num q => some q
  | .null => some 0
  | .nan => none
  | .bad => some 0

/-- Weak lexicographic order on `(fecha, hora, id)` triples. -/
def lex3 (a b : ℕ × ℕ × ℕ) : Prop :=
  a.1 < b.1 ∨ (a.1 = b.1 ∧ (a.2.1 < b.2.1 ∨ (a.2.1 = b.2.1 ∧ a.2.2 ≤ b.2.2)))

/-- Strict lexicographic order on `(fecha, hora, id)` triples. -/
def lex3s (a b : ℕ × ℕ × ℕ) : Prop :=
  a.1 < b.1 ∨ (a.1 = b.1 ∧ (a.2.1 < b.2.1 ∨ (a.2.1 = b.2.1 ∧ a.2.2 < b.2.2)))

instance : DecidableRel lex3 := fun a b => by unfold lex3; infer_instance

instance : DecidableRel lex3s := fun a b => by unfold lex3s; infer_instance

theorem lex3_total (a b : ℕ × ℕ × ℕ) : lex3 a b ∨ lex3 b a := by
  obtain ⟨x1, x2, x3⟩ := a; obtain ⟨y1, y2, y3⟩ := b
  simp only [lex3]; omega

theorem lex3_trans {a b c : ℕ × ℕ × ℕ} (h1 : lex3 a b) (h2 : lex3 b c) : lex3 a c := by
  obtain ⟨x1, x2, x3⟩ := a; obtain ⟨y1, y2, y3⟩ := b; obtain ⟨z1, z2, z3⟩ := c
  simp only [lex3] at *; omega

theorem lex3s_lex3_asymm {a b : ℕ × ℕ × ℕ} (h1 : lex3s a b) (h2 : lex3 b a) : False := by
  obtain ⟨x1, x2, x3⟩ := a; obtain ⟨y1, y2, y3⟩ := b
  simp only [lex3, lex3s] at *; omega

/-- The `(fecha, hora, id)` sort key of a DataFrame row. -/
def Rec.key (r : Rec) : ℕ × ℕ × ℕ := (r.fecha, r.hora, r.id)

/-- The `(fecha, hora, id)` sort key of a database row. -/
def Row.key (r : Row) : ℕ × ℕ × ℕ := (r.fecha, r.hora, r.id)

/-- `ORDER BY fecha, hora, id` (ascending) on DataFrame rows. -/
def recLe (a b : Rec) : Prop := lex3 a.key b.key

/-- `ORDER BY fecha, hora, id` (ascending) on database rows. -/
def rowLe (a b : Row) : Prop := lex3 a.key b.key

/-- Strictly earlier in `(fecha, hora, id)` order. -/
def rowLt (a b : Row) : Prop := lex3s a.key b.key

instance : DecidableRel recLe := fun a b => by unfold recLe; infer_instance

instance : DecidableRel rowLe := fun a b => by unfold rowLe; infer_instance

instance : DecidableRel rowLt := fun a b => by unfold rowLt; infer_instance

instance : IsTotal Rec recLe := ⟨fun a b => lex3_total _ _⟩

instance : IsTrans Rec recLe := ⟨fun _ _ _ => lex3_trans⟩

instance : IsTotal Row rowLe := ⟨fun a b => lex3_total _ _⟩

instance : IsTrans Row rowLe := ⟨fun _ _ _ => lex3_trans⟩

/-- `df.sort_values(["fecha", "hora", "id"])`.  With the database's unique
`id` primary key the sort keys are distinct, so every sorting algorithm
produces this same list. -/
def sortRecs (l : List Rec) : List Rec := l.insertionSort recLe

/-- `ORDER BY fecha ASC, hora ASC, id ASC` over the stored rows. -/
def sortRows (l : List Row) : List Row := l.insertionSort rowLe

/-- `contador_inicial_calc` resolution for one row:
`ci_valid = ci if valid else (0.0 if prev_final is None else prev_final)`. -/
def resolveStart (prev : Option (Option ℚ)) (r : Rec) : Option ℚ :=
  match toValid r.contador_inicial with
  | some q => some q
  | none =>
    match prev with
    | none => some 0
    | some p => p

/-- `contador_final_calc` resolution for one row:
`cf_valid = cf if valid else round(ci_valid + litros_val, 2)`. -/
def resolveEnd (prev : Option (Option ℚ)) (r : Rec) : Option ℚ :=
  match toValid r.contador_final with
  | some q => some q
  | none => nround2 (nadd (resolveStart prev r) (toLitros r.litros_despachados))

/-- The single-pass fold at the heart of `aplicar_secuencia_contador`:
walks the sorted rows carrying `prev_final`, emitting
`round(ci_valid, 2)` / `round(cf_valid, 2)` and advancing
`prev_final = cf_valid` (the unrounded resolved end). -/
def foldCntr : Option (Option ℚ) → List Rec → List RecOut
  | _, [] => []
  | prev, r :: rs =>
    ⟨r, nround2 (resolveStart prev r), nround2 (resolveEnd prev r)⟩ ::
      foldCntr (some (resolveEnd prev r)) rs

/-- The calc phase of `aplicar_secuencia_contador` (lines 299–344): sort by
`(fecha, hora, id)` then run the fold with `prev_final = None`, producing the
`*_calc` columns.  This phase is guarded by `try/except` and never raises.
The function's display tail (lines 346–363) follows in
`aplicar_secuencia_contador_full` below: it is *not* guarded and raises on a
malformed stored meter value. -/
def aplicar_secuencia_contador (df : List Rec) : List RecOut :=
  foldCntr none (sortRecs df)

/-- One cell of `series.where(~series.isna(), calc)` (lines 358–359):
`None`/NaN are NA and get replaced by the calc value (a NaN calc stays NaN);
a number — and equally a malformed non-NA value — survives. -/
def showCell : Cell → Option ℚ → Cell
  | .num q, _ => .num q
  | .bad, _ => .bad
  | .null, some q => .num q
  | .null, none => .nan
  | .nan, some q => .num q
  | .nan, none => .nan

/-- The numeric read the display lines perform on a show cell
(`contador_final_show - contador_inicial_show` on line 361, `float(x)` on
line 362): a number or NaN succeeds, while a Python `None` or a malformed
string raises `TypeError`/`ValueError` — the outer `none` is the raise. -/
def cellFloat : Cell → Option (Option ℚ)
  | .num q => some (some q)
  | .nan => some none
  | .null => none
  | .bad => none

/-- Subtraction on NaN-or-number (NaN is absorbing). -/
def nsub : Option ℚ → Option ℚ → Option ℚ
  | some a, some b => some (a - b)
  | _, _ => none

/-- A display row of the finished DataFrame: the fold output plus the show
columns and `Delta_Litros = (cf_show - ci_show).round(2)` (lines 346–361).
The `Secuencia_Contador` label (line 362) reads the same show cells with
`float(x)` and raises exactly when the line-361 subtraction (which runs
first) raises; its string rendering is display-only and not referenced by
any claim, so only its numeric reads are modelled. -/
structure RecShow where
  out : RecOut
  contador_inicial_show : Cell
  contador_final_show : Cell
  delta_litros : Option ℚ
  deriving DecidableEq, Repr

/-- The display tail for one row: build the show cells, then perform the
unguarded numeric reads; `none` models the uncaught exception raised on a
malformed show cell. -/
def rowShow (o : RecOut) : Option RecShow := do
  let a ← cellFloat (showCell o.orig.contador_inicial o.contador_inicial_calc)
  let b ← cellFloat (showCell o.orig.contador_final o.contador_final_calc)
  some ⟨o, showCell o.orig.contador_inicial o.contador_inicial_calc,
    showCell o.orig.contador_final o.contador_final_calc, nround2 (nsub b a)⟩

/-- The display tail over the whole DataFrame: the column-wise operations of
lines 358–362 raise as soon as any row holds a malformed show cell. -/
def mapShow : List RecOut → Option (List RecShow)
  | [] => some []
  | o :: os => do
    let s ← rowShow o
    let rest ← mapShow os
    some (s :: rest)

/-- The whole of `aplicar_secuencia_contador` (lines 278–363): the guarded
calc fold followed by the unguarded display tail.  `Except.error ()` models
the `TypeError`/`ValueError` that escapes the function when a malformed
stored meter value survives the `where(~isna, calc)` fill. -/
def aplicar_secuencia_contador_full (df : List Rec) : Except Unit (List RecShow) :=
  match mapShow (aplicar_secuencia_contador df) with
  | some l => Except.ok l
  | none => Except.error ()

/-- Default row used with `List.getD`. -/
def dRec : Rec := ⟨0, 0, 0, .null, .null, .null⟩

/-- Default output row used with `List.getD`. -/
def dOut : RecOut := ⟨dRec, none, none⟩

/-- Default database row used with `List.getD`. -/
def dRow : Row := ⟨0, 0, 0, none, none, none⟩

/-- How `pd.read_sql_query` renders a stored meter column value: a number, or
(for SQL `NULL`) Python `None` / float NaN depending on the column dtype.
`aplicar_secuencia_contador` and the backfill `needs` test treat those two
renderings identically, so `NULL` is modelled as `.null`. -/
def readCell : Option ℚ → Cell
  | some q => .num q
  | none => .null

/-- How `pd.read_sql_query` renders a stored `litros_despachados` value.
pandas infers the column dtype from the whole column: if any row holds a
number the column is float64 and `NULL` becomes a float NaN; if the column is
entirely `NULL` it stays object-typed and `NULL` becomes Python `None`. -/
def readLitros (hasNum : Bool) : Option ℚ → Cell
  | some q => .num q
  | none => if hasNum then .nan else .null

/-- Reading one stored row into the DataFrame handed to the reconciler. -/
def readRow (hasNum : Bool) (r : Row) : Rec :=
  ⟨r.fecha, r.hora, r.id, readLitros hasNum r.litros_despachados,
    readCell r.contador_inicial, readCell r.contador_final⟩

/-- The backfill `needs` test on a stored row:
`(ci_db is None) or (cf_db is None) or (str(ci_db) == "nan") or (str(cf_db) == "nan")`
— a stored `NULL` surfaces as `None` or NaN in the DataFrame, both caught. -/
def needsFill (r : Row) : Bool :=
  r.contador_inicial.isNone || r.contador_final.isNone

/-- The update pass of `backfill_contadores`: walk the (sorted) stored rows
paired with the fold output for the same row (the code updates by `id`; ids
are unique in the database and the fold output is in the same
`(fecha, hora, id)` order, so the pairing is positional).  A row that `needs`
filling gets both `contador_inicial` and `contador_final` overwritten with
the calc values (`float` of a calc NaN binds as SQL `NULL`); the updated-row
counter is incremented. -/
def applyCalc : List Row → List RecOut → List Row × ℕ
  | [], _ => ([], 0)
  | rs, [] => (rs, 0)
  | r :: rs, o :: os =>
    let p := applyCalc rs os
    if needsFill r then
      ({ r with contador_inicial := o.contador_inicial_calc,
                contador_final := o.contador_final_calc } :: p.1, p.2 + 1)
    else (r :: p.1, p.2)

/-- `backfill_contadores`: read every row in `(fecha, hora, id)` order, run
`aplicar_secuencia_contador`, and persist the calc values into every row
whose `contador_inicial` or `contador_final` is `NULL`, reporting the number
of rows updated.  (The early returns for a missing table/columns or an empty
table update nothing and are subsumed by the general definition.) -/
def backfill_contadores (store : List Row) : List Row × ℕ :=
  let sorted := sortRows store
  let hasNum := sorted.any fun r => r.litros_despachados.isSome
  let out := aplicar_secuencia_contador (sorted.map (readRow hasNum))
  applyCalc sorted out

/-- Scan of rows in `(fecha, hora, id)` DESCENDING order for the first
non-`NULL` `contador_final`, returning it rounded to 2 decimals, `0.0` if
none: the semantics of
`SELECT contador_final ... WHERE contador_final IS NOT NULL ORDER BY fecha DESC, hora DESC, id DESC LIMIT 1`
followed by `round(float(row[0]), 2) if row ... else 0.0`. -/
def fetchLastSorted : List Row → ℚ
  | [] => 0
  | r :: rs =>
    match r.contador_final with
    | some v => round2 v
    | none => fetchLastSorted rs

/-- `fetch_last_contador_final`: the last stored `contador_final` (global),
per the query above.  (The fallback branch for a table without
`fecha`/`hora` columns never runs: `ensure_schema` adds them.) -/
def fetch_last_contador_final (store : List Row) : ℚ :=
  fetchLastSorted (sortRows store).reverse

/-- The value of the fold variable `prev_final` after the whole pass:
`none` = still undefined (empty input), `some v` = defined with value `v`
(`v = none` being a NaN). -/
def finalPrev : Option (Option ℚ) → List Rec → Option (Option ℚ)
  | prev, [] => prev
  | prev, r :: rs => finalPrev (some (resolveEnd prev r)) rs

/-- The `prev_final` the reconciliation fold produces immediately after the
last record of the store, reading the rows exactly as `backfill_contadores`
does. -/
def chainEnd (store : List Row) : Option (Option ℚ) :=
  finalPrev none
    ((sortRows store).map
      (readRow ((sortRows store).any fun r => r.litros_despachados.isSome)))

/-- `litros_a_gal`: liters to gallons, `round(litros * 0.264172, 2)`. -/
def litros_a_gal (litros : ℚ) : ℚ := round2 (litros * (264172 / 1000000))

/-- The hour-meter fields assembled by the `horometro` step of
`registrar_con_horometro`. -/
structure HoroFields where
  horometro_inicial : ℚ
  horometro_final : ℚ
  horas_trabajadas : ℚ
  consumo_por_gl_h : ℚ
  deriving DecidableEq, Repr

/-- The `horometro` step of `registrar_con_horometro` with the two meter
readings already parsed: `horas = round(horometro_final - horometro_inicial, 2)`;
if `horas <= 0` the step fails (warning printed, the loop stays on this step
and nothing is persisted), otherwise it yields the four hour fields that the
final `insert_distribucion` call persists. -/
def horometroStep (gal hi hf : ℚ) : Option HoroFields :=
  let horas := round2 (hf - hi)
  if horas ≤ 0 then none
  else some ⟨hi, hf, horas, round2 (gal / horas)⟩

/-- The result of parsing one interactive text answer in `editar`:
empty input (take the prompt's default), a valid number, or a malformed
string on which `float(...)` raises. -/
inductive In where
  | empty
  | num (q : ℚ)
  | bad
  deriving DecidableEq, Repr

/-- The record fields `editar` reads and rewrites (the free-text fields
`fecha`, `hora`, `equipo`, `responsable` are prompt pass-throughs with no
numeric logic and are omitted; `tipo_registro` is kept because the claim
speaks about hour-metered records). -/
structure ERec where
  litros_despachados : Option ℚ
  volumen_despachado : Option ℚ
  contador_inicial : Option ℚ
  contador_final : Option ℚ
  horometro_inicial : Option ℚ
  horometro_final : Option ℚ
  horas_trabajadas : Option ℚ
  consumo_por_gl_h : Option ℚ
  precio_diesel : Option ℚ
  costo_diesel_usd : Option ℚ
  tipo_registro : Option String
  deriving DecidableEq, Repr

/-- `editar`'s liters answer: a valid number replaces the stored value,
empty/malformed input keeps it. -/
def editarLitros (rec : ERec) (litros_in : In) : Option ℚ :=
  match litros_in with
  | .num q => some q
  | _ => rec.litros_despachados

/-- `editar`'s gallons: recomputed from the (possibly new) liters, kept when
liters are absent. -/
def editarVolumen (rec : ERec) (litros_in : In) : Option ℚ :=
  match editarLitros rec litros_in with
  | some l => some (litros_a_gal l)
  | none => rec.volumen_despachado

/-- `editar`'s `contador_inicial`: a valid number, else the stored value
(0.0 when the stored value is `NULL`). -/
def editarCi (rec : ERec) (ci_in : In) : ℚ :=
  match ci_in with
  | .num q => q
  | _ => rec.contador_inicial.getD 0

/-- `editar`'s `contador_final`: a valid number, else the suggestion
`round(ci_val + (litros_val or 0.0), 2)`. -/
def editarCf (rec : ERec) (litros_in ci_in cf_in : In) : ℚ :=
  match cf_in with
  | .num q => q
  | _ => round2 (editarCi rec ci_in + (editarLitros rec litros_in).getD 0)

/-- `parse_opt_float` applied to an hour-meter answer whose prompt default is
the stored value: empty falls back to the stored value, a malformed string
parses to `None`. -/
def parseHoro (old : Option ℚ) : In → Option ℚ
  | .num q => some q
  | .empty => old
  | .bad => none

/-- `editar`'s hours/consumption pair (lines 1103–1111): recomputed only when
both hour meters parse and their rounded difference is positive; otherwise
the stored pair is kept. -/
def editarHoras (rec_horas rec_consumo volumen_gal hi_val hf_val : Option ℚ) :
    Option ℚ × Option ℚ :=
  match hi_val, hf_val with
  | some hi, some hf =>
    let horas := round2 (hf - hi)
    if horas ≤ 0 then (rec_horas, rec_consumo)
    else
      (some horas,
        match volumen_gal with
        | some g => some (round2 (g / horas))
        | none => none)
  | _, _ => (rec_horas, rec_consumo)

/-- The record that `editar` persists via `update_distribucion` (lines
1050–1143), as a function of the stored record and the parsed answers.
Fallbacks follow the code: empty/malformed liters keep the old value, the
meter prompts fall back to the old (or suggested) value, a malformed
hour-meter answer parses to `None` (`parse_opt_float`), `horas_trabajadas`
is replaced only when both hour meters parse and their rounded difference is
positive — but the hour-meter readings themselves are always written. -/
def editarUpdate (rec : ERec) (litros_in ci_in cf_in hi_in hf_in precio_in : In)
    (tipo_in : Option String) : ERec :=
  let litros_val : Option ℚ := editarLitros rec litros_in
  let volumen_gal : Option ℚ := editarVolumen rec litros_in
  let hi_val : Option ℚ := parseHoro rec.horometro_inicial hi_in
  let hf_val : Option ℚ := parseHoro rec.horometro_final hf_in
  let hc : Option ℚ × Option ℚ :=
    editarHoras rec.horas_trabajadas rec.consumo_por_gl_h volumen_gal hi_val hf_val
  let precio_val : Option ℚ :=
    match precio_in with
    | .num q => some q
    | _ => rec.precio_diesel
  let costo : Option ℚ :=
    match precio_val, volumen_gal with
    | some p, some g => some (round2 (g * p))
    | _, _ => rec.costo_diesel_usd
  { rec with
    litros_despachados := litros_val
    volumen_despachado := volumen_gal
    contador_inicial := some (editarCi rec ci_in)
    contador_final := some (editarCf rec litros_in ci_in cf_in)
    horometro_inicial := hi_val
    horometro_final := hf_val
    horas_trabajadas := hc.1
    consumo_por_gl_h := hc.2
    precio_diesel := precio_val
    costo_diesel_usd := costo
    tipo_registro :=
      match tipo_in with
      | some t => some t
      | none => rec.tipo_registro }

/-! ### Helper lemmas -/

theorem editarHoras_nonpos (h0 h1 vg : Option ℚ) (hi hf : ℚ)
    (h : round2 (hf - hi) ≤ 0) :
    editarHoras h0 h1 vg (some hi) (some hf) = (h0, h1) := by
  simp only [editarHoras]
  rw [if_pos h]

theorem round2_zero : round2 0 = 0 := by norm_num [round2]

theorem round2_nonpos {x : ℚ} (h : x ≤ 0) : round2 x ≤ 0 := by
  rw [round2]
  have h1 : x * 100 + 1 / 2 ≤ (1 : ℚ) / 2 := by linarith
  have h2 : Int.floor (x * 100 + 1 / 2) ≤ Int.floor ((1 : ℚ) / 2) :=
    Int.floor_le_floor h1
  have h3 : Int.floor ((1 : ℚ) / 2) = 0 := by norm_num
  have h4 : (Int.floor (x * 100 + 1 / 2) : ℚ) ≤ 0 := by
    exact_mod_cast h3 ▸ h2
  exact div_nonpos_iff.mpr (Or.inr ⟨h4, by norm_num⟩)

theorem foldCntr_length (prev : Option (Option ℚ)) (l : List Rec) :
    (foldCntr prev l).length = l.length := by
  induction l generalizing prev with
  | nil => rfl
  | cons r rs ih => simp [foldCntr, ih]

theorem foldCntr_map_orig (prev : Option (Option ℚ)) (l : List Rec) :
    (foldCntr prev l).map RecOut.orig = l := by
  induction l generalizing prev with
  | nil => rfl
  | cons r rs ih => simp [foldCntr, ih]

theorem resolveStart_of_stored {r : Rec} {a : ℚ}
    (h : toValid r.contador_inicial = some a) (prev : Option (Option ℚ)) :
    resolveStart prev r = some a := by
  simp [resolveStart, h]

theorem resolveEnd_of_stored {r : Rec} {v : ℚ}
    (h : toValid r.contador_final = some v) (prev : Option (Option ℚ)) :
    resolveEnd prev r = some v := by
  simp [resolveEnd, h]

/-- The chain-carry of the fold: a row whose stored `contador_inicial` is
absent/invalid resolves its start to (the rounding of) the previous row's
resolved end. -/
theorem foldCntr_chain (l : List Rec) (prev : Option (Option ℚ)) (i : ℕ)
    (hi : i + 1 < l.length)
    (hci : toValid ((l.getD (i + 1) dRec).contador_inicial) = none) :
    ((foldCntr prev l).getD (i + 1) dOut).contador_inicial_calc =
      ((foldCntr prev l).getD i dOut).contador_final_calc := by
  induction l generalizing prev i with
  | nil => simp at hi
  | cons r rs ih =>
    cases i with
    | zero =>
      cases rs with
      | nil => simp at hi
      | cons r2 rs2 =>
        simp only [List.getD_cons_succ, List.getD_cons_zero] at hci ⊢
        simp [foldCntr, resolveStart, hci]
    | succ j =>
      simp only [List.getD_cons_succ] at hci ⊢
      simp only [foldCntr, List.getD_cons_succ]
      exact ih (some (resolveEnd prev r)) j (by simpa using hi) hci

/-- A row with a stored valid `contador_inicial` emits it (rounded). -/
theorem foldCntr_ci_stored (l : List Rec) (prev : Option (Option ℚ)) (i : ℕ) (a : ℚ)
    (hi : i < l.length)
    (h : toValid ((l.getD i dRec).contador_inicial) = some a) :
    ((foldCntr prev l).getD i dOut).contador_inicial_calc = some (round2 a) := by
  induction l generalizing prev i with
  | nil => simp at hi
  | cons r rs ih =>
    cases i with
    | zero =>
      simp only [List.getD_cons_zero] at h
      simp [foldCntr, resolveStart_of_stored h, nround2]
    | succ j =>
      simp only [List.getD_cons_succ] at h ⊢
      simp only [foldCntr, List.getD_cons_succ]
      exact ih (some (resolveEnd prev r)) j (by simpa using hi) h

/-- A row with a stored valid `contador_final` emits it (rounded). -/
theorem foldCntr_cf_stored (l : List Rec) (prev : Option (Option ℚ)) (i : ℕ) (v : ℚ)
    (hi : i < l.length)
    (h : toValid ((l.getD i dRec).contador_final) = some v) :
    ((foldCntr prev l).getD i dOut).contador_final_calc = some (round2 v) := by
  induction l generalizing prev i with
  | nil => simp at hi
  | cons r rs ih =>
    cases i with
    | zero =>
      simp only [List.getD_cons_zero] at h
      simp [foldCntr, resolveEnd_of_stored h, nround2]
    | succ j =>
      simp only [List.getD_cons_succ] at h ⊢
      simp only [foldCntr, List.getD_cons_succ]
      exact ih (some (resolveEnd prev r)) j (by simpa using hi) h

/-- `prev_final` is either still undefined or a genuine (non-NaN) number. -/
def prevOk : Option (Option ℚ) → Prop
  | none => True
  | some p => p.isSome

theorem resolveStart_isSome {prev : Option (Option ℚ)} (r : Rec) (hp : prevOk prev) :
    (resolveStart prev r).isSome := by
  rw [resolveStart.eq_def]
  cases h : toValid r.contador_inicial with
  | some q => simp
  | none =>
    cases prev with
    | none => simp
    | some p => simpa [prevOk] using hp

theorem resolveEnd_isSome {prev : Option (Option ℚ)} (r : Rec) (hp : prevOk prev)
    (hl : (toLitros r.litros_despachados).isSome) : (resolveEnd prev r).isSome := by
  rw [resolveEnd.eq_def]
  cases h : toValid r.contador_final with
  | some q => simp
  | none =>
    obtain ⟨a, ha⟩ := Option.isSome_iff_exists.mp (resolveStart_isSome r hp)
    obtain ⟨b, hb⟩ := Option.isSome_iff_exists.mp hl
    simp [ha, hb, nadd, nround2]

/-- With no NaN litros anywhere, every calc value the fold emits is a
number. -/
theorem foldCntr_calc_isSome (l : List Rec) (prev : Option (Option ℚ))
    (hp : prevOk prev)
    (hl : ∀ r ∈ l, (toLitros r.litros_despachados).isSome) :
    ∀ o ∈ foldCntr prev l,
      o.contador_inicial_calc.isSome ∧ o.contador_final_calc.isSome := by
  induction l generalizing prev with
  | nil => simp [foldCntr]
  | cons r rs ih =>
    intro o ho
    have hlr : (toLitros r.litros_despachados).isSome := hl r (by simp)
    have hend : (resolveEnd prev r).isSome := resolveEnd_isSome r hp hlr
    rcases List.mem_cons.mp ho with h | h
    · subst h
      constructor
      · obtain ⟨a, ha⟩ := Option.isSome_iff_exists.mp (resolveStart_isSome r hp)
        simp [ha, nround2]
      · obtain ⟨b, hb⟩ := Option.isSome_iff_exists.mp hend
        simp [hb, nround2]
    · exact ih (some (resolveEnd prev r)) (by simpa [prevOk] using hend)
        (fun x hx => hl x (by simp [hx])) o h

theorem applyCalc_length (rs : List Row) (os : List RecOut) :
    (applyCalc rs os).1.length = rs.length := by
  induction rs generalizing os with
  | nil => simp [applyCalc]
  | cons r rs ih =>
    cases os with
    | nil => simp [applyCalc]
    | cons o os =>
      by_cases h : needsFill r <;> simp [applyCalc, h, ih]

theorem applyCalc_count_zero (rs : List Row) (os : List RecOut)
    (h : ∀ r ∈ rs, needsFill r = false) : (applyCalc rs os).2 = 0 := by
  induction rs generalizing os with
  | nil => simp [applyCalc]
  | cons r rs ih =>
    cases os with
    | nil => simp [applyCalc]
    | cons o os =>
      have hr : needsFill r = false := h r (by simp)
      simp [applyCalc, hr, ih os (fun x hx => h x (by simp [hx]))]

theorem applyCalc_mem_not_needs (rs : List Row) (os : List RecOut) (r : Row)
    (hr : r ∈ rs) (hn : needsFill r = false) : r ∈ (applyCalc rs os).1 := by
  induction rs generalizing os with
  | nil => simp at hr
  | cons x rs ih =>
    cases os with
    | nil => simpa [applyCalc] using hr
    | cons o os =>
      rcases List.mem_cons.mp hr with h | h
      · subst h
        simp [applyCalc, hn]
      · by_cases hx : needsFill x <;> simp [applyCalc, hx, ih os h]

theorem applyCalc_cons_pos {r : Row} {o : RecOut} (rs : List Row) (os : List RecOut)
    (hr : needsFill r = true) :
    applyCalc (r :: rs) (o :: os) =
      ({ r with contador_inicial := o.contador_inicial_calc,
                contador_final := o.contador_final_calc } :: (applyCalc rs os).1,
        (applyCalc rs os).2 + 1) := by
  simp [applyCalc, hr]

theorem applyCalc_cons_neg {r : Row} {o : RecOut} (rs : List Row) (os : List RecOut)
    (hr : needsFill r = false) :
    applyCalc (r :: rs) (o :: os) =
      (r :: (applyCalc rs os).1, (applyCalc rs os).2) := by
  simp [applyCalc, hr]

theorem applyCalc_mem_litros (rs : List Row) (os : List RecOut)
    (h : ∀ r ∈ rs, r.litros_despachados.isSome) :
    ∀ x ∈ (applyCalc rs os).1, x.litros_despachados.isSome := by
  induction rs generalizing os with
  | nil => simp [applyCalc]
  | cons r rs ih =>
    cases os with
    | nil => simpa [applyCalc] using h
    | cons o os =>
      intro x hx
      have htail := ih os (fun y hy => h y (by simp [hy]))
      cases hr : needsFill r with
      | true =>
        rw [applyCalc_cons_pos rs os hr] at hx
        rcases List.mem_cons.mp hx with h1 | h1
        · subst h1; simpa using h r (by simp)
        · exact htail x h1
      | false =>
        rw [applyCalc_cons_neg rs os hr] at hx
        rcases List.mem_cons.mp hx with h1 | h1
        · rw [h1]; exact h r (by simp)
        · exact htail x h1

theorem applyCalc_mem_filled (rs : List Row) (os : List RecOut)
    (hlen : rs.length = os.length)
    (hos : ∀ o ∈ os, o.contador_inicial_calc.isSome ∧ o.contador_final_calc.isSome) :
    ∀ x ∈ (applyCalc rs os).1, x.contador_inicial.isSome ∧ x.contador_final.isSome := by
  induction rs generalizing os with
  | nil => simp [applyCalc]
  | cons r rs ih =>
    cases os with
    | nil => simp at hlen
    | cons o os =>
      intro x hx
      have htail := ih os (by simpa using hlen) (fun y hy => hos y (by simp [hy]))
      cases hr : needsFill r with
      | true =>
        rw [applyCalc_cons_pos rs os hr] at hx
        rcases List.mem_cons.mp hx with h1 | h1
        · subst h1
          have := hos o (by simp)
          exact ⟨this.1, this.2⟩
        · exact htail x h1
      | false =>
        rw [applyCalc_cons_neg rs os hr] at hx
        rcases List.mem_cons.mp hx with h1 | h1
        · rw [h1]
          have hne : (r.contador_inicial.isNone || r.contador_final.isNone) = false := by
            simpa [needsFill] using hr
          constructor
          · cases hci : r.contador_inicial <;> simp [hci] at hne ⊢
          · cases hcf : r.contador_final <;> simp [hcf] at hne ⊢
        · exact htail x h1

theorem applyCalc_getD (rs : List Row) (os : List RecOut) (i : ℕ)
    (hi : i < rs.length) (hlen : rs.length = os.length) :
    (applyCalc rs os).1.getD i dRow =
      if needsFill (rs.getD i dRow) then
        { rs.getD i dRow with
          contador_inicial := (os.getD i dOut).contador_inicial_calc,
          contador_final := (os.getD i dOut).contador_final_calc }
      else rs.getD i dRow := by
  induction rs generalizing os i with
  | nil => simp at hi
  | cons r rs ih =>
    cases os with
    | nil => simp at hlen
    | cons o os =>
      cases i with
      | zero =>
        cases hr : needsFill r with
        | true => rw [applyCalc_cons_pos rs os hr]; simp [hr]
        | false => rw [applyCalc_cons_neg rs os hr]; simp [hr]
      | succ j =>
        have hj : j < rs.length := by simpa using hi
        have hrec := ih os j hj (by simpa using hlen)
        cases hr : needsFill r with
        | true =>
          rw [applyCalc_cons_pos rs os hr]
          simpa using hrec
        | false =>
          rw [applyCalc_cons_neg rs os hr]
          simpa using hrec

theorem sortRows_perm (l : List Row) : List.Perm (sortRows l) l :=
  List.perm_insertionSort _ _

theorem mem_sortRows {l : List Row} {r : Row} : r ∈ sortRows l ↔ r ∈ l :=
  List.mem_insertionSort _

theorem sortRows_sorted (l : List Row) : (sortRows l).Sorted rowLe :=
  List.sorted_insertionSort _ _

theorem sortRecs_sorted (l : List Rec) : (sortRecs l).Sorted recLe :=
  List.sorted_insertionSort _ _

theorem sortRecs_of_sorted {l : List Rec} (h : l.Sorted recLe) : sortRecs l = l :=
  List.Sorted.insertionSort_eq h

theorem sortRecs_perm {l : List Rec} : List.Perm (sortRecs l) l :=
  List.perm_insertionSort _ _

theorem cellFloat_showCell {c : Cell} (h : c ≠ .bad) (cv : Option ℚ) :
    (cellFloat (showCell c cv)).isSome := by
  cases c <;> cases cv <;> simp [showCell, cellFloat] at h ⊢

theorem rowShow_isSome {o : RecOut} (h1 : o.orig.contador_inicial ≠ .bad)
    (h2 : o.orig.contador_final ≠ .bad) : ∃ s, rowShow o = some s := by
  obtain ⟨a, ha⟩ := Option.isSome_iff_exists.mp
    (cellFloat_showCell h1 o.contador_inicial_calc)
  obtain ⟨b, hb⟩ := Option.isSome_iff_exists.mp
    (cellFloat_showCell h2 o.contador_final_calc)
  refine ⟨⟨o, showCell o.orig.contador_inicial o.contador_inicial_calc,
    showCell o.orig.contador_final o.contador_final_calc,
    nround2 (nsub b a)⟩, ?_⟩
  simp [rowShow, ha, hb]

theorem rowShow_none {o : RecOut}
    (h : o.orig.contador_inicial = .bad ∨ o.orig.contador_final = .bad) :
    rowShow o = none := by
  rcases h with h | h
  · simp [rowShow, h, showCell, cellFloat]
  · cases hci : cellFloat (showCell o.orig.contador_inicial
      o.contador_inicial_calc) <;>
      simp [rowShow, hci, h, showCell, cellFloat]

theorem mapShow_none (o : RecOut) :
    ∀ l : List RecOut, o ∈ l → rowShow o = none → mapShow l = none
  | [], ho, _ => by simp at ho
  | x :: xs, ho, hnone => by
    rcases List.mem_cons.mp ho with h | h
    · rw [h] at hnone
      simp [mapShow, hnone]
    · cases hx : rowShow x <;>
        simp [mapShow, hx, mapShow_none o xs h hnone]

theorem mapShow_ok :
    ∀ l : List RecOut,
      (∀ o ∈ l, o.orig.contador_inicial ≠ .bad ∧ o.orig.contador_final ≠ .bad) →
      ∃ out, mapShow l = some out ∧ out.length = l.length
  | [], _ => ⟨[], rfl, rfl⟩
  | o :: os, h => by
    obtain ⟨rest, hrest, hlen⟩ := mapShow_ok os (fun x hx => h x (by simp [hx]))
    obtain ⟨s, hs⟩ := rowShow_isSome (h o (by simp)).1 (h o (by simp)).2
    exact ⟨s :: rest, by simp [mapShow, hs, hrest], by simp [hlen]⟩

theorem sorted_map_readRow (hasNum : Bool) {l : List Row} (hs : l.Sorted rowLe) :
    (l.map (readRow hasNum)).Sorted recLe :=
  List.pairwise_map.mpr (hs.imp fun hab => hab)

/-- `aplicar_secuencia_contador` re-sorts the rows it receives, but the rows
read from `ORDER BY fecha, hora, id` are already in that order, so its sort
is the identity there. -/
theorem sortRecs_map_readRow (hasNum : Bool) (store : List Row) :
    sortRecs ((sortRows store).map (readRow hasNum)) =
      (sortRows store).map (readRow hasNum) :=
  sortRecs_of_sorted (sorted_map_readRow hasNum (sortRows_sorted store))

/-- In a sorted list whose strict maximum is `m`, `m` is the last element. -/
theorem sorted_max_concat {m : Row} :
    ∀ {s : List Row}, s.Sorted rowLe → m ∈ s →
      (∀ x ∈ s, x ≠ m → rowLt x m) → ∃ t, s = t ++ [m]
  | [], _, hm, _ => by simp at hm
  | x :: tail, hs, hm, hmax => by
    by_cases ht : m ∈ tail
    · obtain ⟨t, htt⟩ :=
        sorted_max_concat (List.sorted_cons.mp hs).2 ht
          (fun y hy hne => hmax y (by simp [hy]) hne)
      exact ⟨x :: t, by simp [htt]⟩
    · have hxm : x = m := by
        rcases List.mem_cons.mp hm with h | h
        · exact h.symm
        · exact absurd h ht
      subst hxm
      cases tail with
      | nil => exact ⟨[], rfl⟩
      | cons z zs =>
        exfalso
        have hz : z ≠ x := fun h => ht (by simp [h])
        have h1 : rowLt z x := hmax z (by simp) hz
        have h2 : rowLe x z := (List.sorted_cons.mp hs).1 z (by simp)
        exact lex3s_lex3_asymm h1 h2

/-- Scanning a descending-sorted list whose unique maximal row with non-NULL
`contador_final` is `m` finds exactly `m`'s value. -/
theorem fetchLastSorted_max {m : Row} {v : ℚ} :
    ∀ {d : List Row}, d.Sorted (fun a b => rowLe b a) → m ∈ d →
      m.contador_final = some v →
      (∀ x ∈ d, x ≠ m → x.contador_final ≠ none → rowLt x m) →
      fetchLastSorted d = round2 v
  | [], _, hm, _, _ => by simp at hm
  | x :: tail, hd, hm, hv, hmax => by
    cases hx : x.contador_final with
    | some w =>
      have hxm : x = m := by
        by_contra hne
        have h1 : rowLt x m := hmax x (by simp) hne (by simp [hx])
        have h2 : m ∈ tail := by
          rcases List.mem_cons.mp hm with h | h
          · exact absurd h.symm hne
          · exact h
        have h3 : rowLe m x := (List.sorted_cons.mp hd).1 m h2
        exact lex3s_lex3_asymm h1 h3
      subst hxm
      rw [hx] at hv
      simp [fetchLastSorted, hx, Option.some_inj.mp hv]
    | none =>
      have hxm : x ≠ m := fun h => by rw [h, hv] at hx; exact Option.noConfusion hx
      have h2 : m ∈ tail := by
        rcases List.mem_cons.mp hm with h | h
        · exact absurd h.symm hxm
        · exact h
      have := fetchLastSorted_max (List.sorted_cons.mp hd).2 h2 hv
        (fun y hy hne => hmax y (by simp [hy]) hne)
      simpa [fetchLastSorted, hx] using this

theorem finalPrev_concat (p : Option (Option ℚ)) (l : List Rec) (r : Rec) :
    finalPrev p (l ++ [r]) = some (resolveEnd (finalPrev p l) r) := by
  induction l generalizing p with
  | nil => simp [finalPrev]
  | cons x xs ih => simp [finalPrev, ih]

theorem fetchLastSorted_none :
    ∀ (d : List Row), (∀ r ∈ d, r.contador_final = none) → fetchLastSorted d = 0
  | [], _ => rfl
  | x :: tail, h => by
    have hx : x.contador_final = none := h x (by simp)
    have := fetchLastSorted_none tail (fun r hr => h r (by simp [hr]))
    simpa [fetchLastSorted, hx] using this

theorem getD_map_readRow (h : Bool) (s : List Row) (i : ℕ) (hi : i < s.length) :
    (s.map (readRow h)).getD i dRec = readRow h (s.getD i dRow) := by
  rw [List.getD_eq_getElem?_getD, List.getD_eq_getElem?_getD, List.getElem?_map,
    List.getElem?_eq_getElem hi]
  rfl

/-- The calc columns a fold output carries, forgetting the input columns. -/
def calcsOf (l : List RecOut) : List (Option ℚ × Option ℚ) :=
  l.map fun o => (o.contador_inicial_calc, o.contador_final_calc)

/-! ### The claims -/

/-- Records of spec scenario 6: liters 50 then 30, all meter fields NULL. -/
def scenRec1 : Rec := ⟨1, 1, 1, .num 50, .null, .null⟩

def scenRec2 : Rec := ⟨1, 1, 2, .num 30, .null, .null⟩

/-- **C6**: the resolved `meterEnd` equals the stored `meterEnd` when present
and valid-numeric, and otherwise equals `round(resolvedStart + litersDispensed, 2)`
(the emitted calc column is that resolved value rounded to 2 decimals); the
two-record scenario with liters 50 then 30 and all meter fields null yields
the chains 0.00 → 50.00 and 50.00 → 80.00. -/
theorem c6_resolved_end :
    (∀ (prev : Option (Option ℚ)) (r : Rec) (q : ℚ),
        toValid r.contador_final = some q → resolveEnd prev r = some q) ∧
    (∀ (prev : Option (Option ℚ)) (r : Rec),
        toValid r.contador_final = none →
          resolveEnd prev r =
            nround2 (nadd (resolveStart prev r) (toLitros r.litros_despachados))) ∧
    (aplicar_secuencia_contador [scenRec1, scenRec2]).map
        (fun o => (o.contador_inicial_calc, o.contador_final_calc)) =
      [(some 0, some 50), (some 50, some 80)] := by
  refine ⟨fun prev r q h => resolveEnd_of_stored h prev,
    fun prev r h => by simp [resolveEnd, h], ?_⟩
  norm_num [aplicar_secuencia_contador, sortRecs, List.insertionSort, List.orderedInsert,
    recLe, lex3, Rec.key, scenRec1, scenRec2, foldCntr, resolveStart, resolveEnd,
    toValid, toLitros, nadd, nround2, round2]

/-- Witness for C6 at a concrete record with a stored meter end of 7. -/
theorem c6_resolved_end_witness :
    resolveEnd none ⟨1, 1, 1, .num 50, .null, .num 7⟩ = some 7 :=
  c6_resolved_end.1 none ⟨1, 1, 1, .num 50, .null, .num 7⟩ 7 rfl

/-- First record: stored meter end 10.  Second record: stored meter start 999,
disagreeing with the previous end. -/
def c1rowA : Rec := ⟨1, 1, 1, .num 5, .null, .num 10⟩

def c1rowB : Rec := ⟨1, 1, 2, .num 5, .num 999, .null⟩

theorem c1_full_eval : aplicar_secuencia_contador [c1rowA, c1rowB] =
    [⟨c1rowA, some 0, some 10⟩, ⟨c1rowB, some 999, some 1004⟩] := by
  norm_num [aplicar_secuencia_contador, sortRecs, List.insertionSort, List.orderedInsert,
    recLe, lex3, Rec.key, c1rowA, c1rowB, foldCntr, resolveStart, resolveEnd,
    toValid, toLitros, nadd, nround2, round2]

/-- **C1** (counterexample): the chain-carry does not hold for every record
regardless of which fields were stored — a stored `meterStart` (999) wins over
the previous record's resolved `meterEnd` (10). -/
theorem c1_counterexample :
    ¬ (∀ df : List Rec,
        (∀ i : ℕ, i + 1 < (aplicar_secuencia_contador df).length →
          ((aplicar_secuencia_contador df).getD (i + 1) dOut).contador_inicial_calc =
            ((aplicar_secuencia_contador df).getD i dOut).contador_final_calc) ∧
        (df ≠ [] →
          ((aplicar_secuencia_contador df).getD 0 dOut).contador_inicial_calc =
            some 0)) := by
  intro h
  have h2 := (h [c1rowA, c1rowB]).1 0 (by rw [c1_full_eval]; norm_num)
  rw [c1_full_eval] at h2
  norm_num [List.getD] at h2

/-- **C1** (amended): the chain-carry holds at every record whose stored
`meterStart` is absent or invalid — its resolved start equals the previous
record's resolved end, and `0.0` at the first record; a record with a stored
valid `meterStart` instead resolves to that stored value (rounded), even when
it disagrees with the previous end. -/
theorem c1_chain_carry (df : List Rec) :
    (∀ i : ℕ, i + 1 < (sortRecs df).length →
      toValid (((sortRecs df).getD (i + 1) dRec).contador_inicial) = none →
      ((aplicar_secuencia_contador df).getD (i + 1) dOut).contador_inicial_calc =
        ((aplicar_secuencia_contador df).getD i dOut).contador_final_calc) ∧
    (∀ (a : ℚ) (i : ℕ), i < (sortRecs df).length →
      toValid (((sortRecs df).getD i dRec).contador_inicial) = some a →
      ((aplicar_secuencia_contador df).getD i dOut).contador_inicial_calc =
        some (round2 a)) ∧
    (sortRecs df ≠ [] →
      toValid (((sortRecs df).getD 0 dRec).contador_inicial) = none →
      ((aplicar_secuencia_contador df).getD 0 dOut).contador_inicial_calc =
        some 0) := by
  refine ⟨?_, ?_, ?_⟩
  · intro i hi hci
    exact foldCntr_chain (sortRecs df) none i hi hci
  · intro a i hi h
    exact foldCntr_ci_stored (sortRecs df) none i a hi h
  · intro hne h
    rw [aplicar_secuencia_contador]
    cases hs : sortRecs df with
    | nil => exact absurd hs hne
    | cons r rs =>
      rw [hs] at h
      simp only [List.getD_cons_zero] at h
      simp [foldCntr, resolveStart, h, nround2, round2_zero]

/-- Ordered records with absent meter starts, used to witness C1. -/
def c1wA : Rec := ⟨2, 1, 1, .num 20, .null, .num 30⟩

def c1wB : Rec := ⟨2, 1, 2, .num 5, .null, .null⟩

/-- Witness for C1 (amended) on a two-record input whose second record has a
NULL stored meter start. -/
theorem c1_chain_carry_witness :
    ((aplicar_secuencia_contador [c1wA, c1wB]).getD 1 dOut).contador_inicial_calc =
      ((aplicar_secuencia_contador [c1wA, c1wB]).getD 0 dOut).contador_final_calc :=
  (c1_chain_carry [c1wA, c1wB]).1 0
    (by norm_num [sortRecs, List.insertionSort, List.orderedInsert, recLe, lex3,
      Rec.key, c1wA, c1wB])
    (by norm_num [sortRecs, List.insertionSort, List.orderedInsert, recLe, lex3,
      Rec.key, c1wA, c1wB, toValid])

/-- **C2**: on a fully-resolved ordered record sequence (every record carries
valid-numeric stored meter values) re-running the fold over the fold's own
output rows reproduces the output exactly; the fold is a pure function of the
ordered input (a Lean function of the list, with no other state). -/
theorem c2_fold_idempotent (df : List Rec)
    (h : ∀ r ∈ df,
      (toValid r.contador_inicial).isSome ∧ (toValid r.contador_final).isSome) :
    aplicar_secuencia_contador ((aplicar_secuencia_contador df).map RecOut.orig) =
      aplicar_secuencia_contador df := by
  have h1 : (aplicar_secuencia_contador df).map RecOut.orig = sortRecs df := by
    rw [aplicar_secuencia_contador]; exact foldCntr_map_orig _ _
  rw [h1, aplicar_secuencia_contador, aplicar_secuencia_contador,
    sortRecs_of_sorted (sortRecs_sorted df)]

/-- Fully-resolved records used to witness C2. -/
def c2r1 : Rec := ⟨3, 1, 1, .num 10, .num 0, .num 10⟩

def c2r2 : Rec := ⟨3, 2, 2, .num 5, .num 10, .num 15⟩

/-- Witness for C2 on a concrete fully-resolved two-record sequence. -/
theorem c2_fold_idempotent_witness :
    aplicar_secuencia_contador
        ((aplicar_secuencia_contador [c2r1, c2r2]).map RecOut.orig) =
      aplicar_secuencia_contador [c2r1, c2r2] :=
  c2_fold_idempotent [c2r1, c2r2]
    (by intro r hr
        rcases List.mem_cons.mp hr with h | h
        · subst h; simp [c2r1, toValid]
        · rcases List.mem_cons.mp h with h2 | h2
          · subst h2; simp [c2r2, toValid]
          · simp at h2)

/-- A row with liters 50 and both meters NULL, followed by a row with NULL
liters and both meters NULL.  Reading the store makes the second liters a
float NaN (the column holds a number elsewhere), so the derived
`contador_final` is NaN and is persisted as SQL `NULL` — every later backfill
run keeps updating that row. -/
def c3row1 : Row := ⟨1, 1, 1, some 50, none, none⟩

def c3row2 : Row := ⟨2, 2, 2, none, none, none⟩

def c3store : List Row := [c3row1, c3row2]

/-- **C3** (counterexample): on `c3store` the second backfill run still
updates one row (and every further run keeps updating it), so backfill is not
a fixpoint after one application for every record store state. -/
theorem c3_counterexample :
    (backfill_contadores (backfill_contadores c3store).1).2 = 1 ∧
      (backfill_contadores (backfill_contadores c3store).1).2 ≠ 0 := by
  have h : (backfill_contadores (backfill_contadores c3store).1).2 = 1 := by
    norm_num [c3store, c3row1, c3row2, backfill_contadores, sortRows,
      List.insertionSort, List.orderedInsert, rowLe, lex3, Row.key,
      aplicar_secuencia_contador, sortRecs, recLe, Rec.key, readRow, readCell,
      readLitros, foldCntr, resolveStart, resolveEnd, toValid, toLitros, nadd,
      nround2, round2, applyCalc, needsFill]
  exact ⟨h, by rw [h]; norm_num⟩

/-- **C3** (amended): on every store in which each record has a non-NULL
`litros_despachados`, running backfill once and then a second time leaves the
second run updating zero rows; each run reports its updated-row count (the
second component of the result). -/
theorem c3_backfill_fixpoint (store : List Row)
    (h : ∀ r ∈ store, r.litros_despachados.isSome) :
    (backfill_contadores (backfill_contadores store).1).2 = 0 := by
  have hs : ∀ r ∈ sortRows store, r.litros_despachados.isSome :=
    fun r hr => h r ((sortRows_perm store).subset hr)
  have hdf : ∀ x ∈ (sortRows store).map
      (readRow ((sortRows store).any fun r => r.litros_despachados.isSome)),
      (toLitros x.litros_despachados).isSome := by
    intro x hx
    rcases List.mem_map.mp hx with ⟨r, hr, rfl⟩
    obtain ⟨q, hq⟩ := Option.isSome_iff_exists.mp (hs r hr)
    simp [readRow, readLitros, hq, toLitros]
  have hout : ∀ o ∈ aplicar_secuencia_contador
      ((sortRows store).map
        (readRow ((sortRows store).any fun r => r.litros_despachados.isSome))),
      o.contador_inicial_calc.isSome ∧ o.contador_final_calc.isSome := by
    rw [aplicar_secuencia_contador, sortRecs_map_readRow]
    exact foldCntr_calc_isSome _ none (by simp [prevOk]) hdf
  have hlen : (sortRows store).length =
      (aplicar_secuencia_contador
        ((sortRows store).map
          (readRow ((sortRows store).any fun r => r.litros_despachados.isSome)))).length := by
    rw [aplicar_secuencia_contador, sortRecs_map_readRow, foldCntr_length,
      List.length_map]
  have run1 : backfill_contadores store =
      applyCalc (sortRows store)
        (aplicar_secuencia_contador
          ((sortRows store).map
            (readRow ((sortRows store).any fun r => r.litros_despachados.isSome)))) := rfl
  have hfilled : ∀ x ∈ (backfill_contadores store).1,
      x.contador_inicial.isSome ∧ x.contador_final.isSome := by
    rw [run1]
    exact applyCalc_mem_filled _ _ hlen hout
  have hneeds : ∀ r ∈ sortRows (backfill_contadores store).1, needsFill r = false := by
    intro r hr
    have hf := hfilled r ((sortRows_perm _).subset hr)
    obtain ⟨a, ha⟩ := Option.isSome_iff_exists.mp hf.1
    obtain ⟨b, hb⟩ := Option.isSome_iff_exists.mp hf.2
    simp [needsFill, ha, hb]
  exact applyCalc_count_zero _ _ hneeds

/-- All-liters-present store used to witness C3 (amended). -/
def c3wstore : List Row :=
  [⟨1, 1, 1, some 50, none, none⟩, ⟨2, 2, 2, some 30, none, none⟩]

/-- Witness for C3 (amended) on a concrete store whose liters are all
present. -/
theorem c3_backfill_fixpoint_witness :
    (backfill_contadores (backfill_contadores c3wstore).1).2 = 0 :=
  c3_backfill_fixpoint c3wstore
    (by intro r hr
        rcases List.mem_cons.mp hr with h | h
        · subst h; simp
        · rcases List.mem_cons.mp h with h2 | h2
          · subst h2; simp
          · simp at h2)

/-- **C4**: a record whose stored `meterStart` and `meterEnd` are both
non-NULL fails the backfill `needs` test, so backfill re-emits it unchanged
(no field written), regardless of whether its stored values are consistent
with the chain of its neighbours. -/
theorem c4_stored_precedence (store : List Row) (r : Row) (hr : r ∈ store)
    (hci : r.contador_inicial.isSome) (hcf : r.contador_final.isSome) :
    r ∈ (backfill_contadores store).1 := by
  have hneeds : needsFill r = false := by
    obtain ⟨a, ha⟩ := Option.isSome_iff_exists.mp hci
    obtain ⟨b, hb⟩ := Option.isSome_iff_exists.mp hcf
    simp [needsFill, ha, hb]
  exact applyCalc_mem_not_needs _ _ r ((sortRows_perm store).symm.subset hr) hneeds

/-- A store whose middle record stores a meter pair (999 → 1010) wildly
inconsistent with its neighbours' chain. -/
def c4store : List Row :=
  [⟨1, 1, 1, some 50, some 0, some 50⟩,
   ⟨2, 2, 2, some 5, some 999, some 1010⟩,
   ⟨3, 3, 3, some 5, none, none⟩]

/-- Witness for C4: the inconsistent fully-stored record survives backfill
unchanged. -/
theorem c4_stored_precedence_witness :
    (⟨2, 2, 2, some 5, some 999, some 1010⟩ : Row) ∈ (backfill_contadores c4store).1 :=
  c4_stored_precedence c4store ⟨2, 2, 2, some 5, some 999, some 1010⟩
    (by simp [c4store]) (by simp) (by simp)

/-- A record ending at stored 100, followed by a newer record whose meters
are NULL: the fold derives 100 → 150 for it, but the last-known-end query
ignores it and answers 100. -/
def c5rowA : Row := ⟨1, 1, 1, some 50, some 50, some 100⟩

def c5rowB : Row := ⟨2, 2, 2, some 50, none, none⟩

def c5store : List Row := [c5rowA, c5rowB]

/-- **C5** (counterexample): `fetch_last_contador_final` answers the last
*stored* `contador_final` (100), while the fold's `prev_final` after the last
record is the derived 150 — the query is not the fold's final `previousEnd`
for every record set. -/
theorem c5_counterexample :
    fetch_last_contador_final c5store = 100 ∧ chainEnd c5store = some (some 150) ∧
      some (some (fetch_last_contador_final c5store)) ≠ chainEnd c5store := by
  have h1 : fetch_last_contador_final c5store = 100 := by
    norm_num [c5store, c5rowA, c5rowB, fetch_last_contador_final, sortRows,
      List.insertionSort, List.orderedInsert, rowLe, lex3, Row.key,
      fetchLastSorted, round2]
  have h2 : chainEnd c5store = some (some 150) := by
    norm_num [c5store, c5rowA, c5rowB, chainEnd, sortRows, List.insertionSort,
      List.orderedInsert, rowLe, lex3, Row.key, readRow, readCell, readLitros,
      finalPrev, resolveStart, resolveEnd, toValid, toLitros, nadd, nround2,
      round2]
  refine ⟨h1, h2, ?_⟩
  rw [h1, h2]
  norm_num

/-- **C5** (amended): the query returns the most recent stored non-NULL
`contador_final` rounded to 2 decimals; it coincides with the fold's final
`prev_final` whenever the `(fecha, hora, id)`-maximal record itself stores a
valid `contador_final` that is already rounded to 2 decimals. -/
theorem c5_last_end (store : List Row) (m : Row) (v : ℚ)
    (hm : m ∈ store) (hmax : ∀ x ∈ store, x ≠ m → rowLt x m)
    (hcf : m.contador_final = some v) (hv : round2 v = v) :
    fetch_last_contador_final store = v ∧ chainEnd store = some (some v) := by
  constructor
  · rw [fetch_last_contador_final]
    have hd : (sortRows store).reverse.Pairwise (fun a b => rowLe b a) :=
      List.pairwise_reverse.mpr (sortRows_sorted store)
    have hm' : m ∈ (sortRows store).reverse :=
      List.mem_reverse.mpr ((sortRows_perm store).symm.subset hm)
    have hfl := fetchLastSorted_max hd hm' hcf
      (fun x hx hne _ => hmax x ((sortRows_perm store).subset (List.mem_reverse.mp hx)) hne)
    rw [hfl, hv]
  · obtain ⟨t, ht⟩ := sorted_max_concat (sortRows_sorted store)
      ((sortRows_perm store).symm.subset hm)
      (fun x hx hne => hmax x ((sortRows_perm store).subset hx) hne)
    rw [chainEnd, ht]
    simp only [List.map_append, List.map_cons, List.map_nil]
    rw [finalPrev_concat]
    have hvm : toValid (readRow ((t ++ [m]).any fun r => r.litros_despachados.isSome)
        m).contador_final = some v := by
      simp [readRow, readCell, hcf, toValid]
    rw [resolveEnd_of_stored hvm]

/-- Store used to witness C5 (amended): the latest record stores meter end
80.00. -/
def c5wstore : List Row :=
  [⟨1, 1, 1, some 50, none, some 50⟩, ⟨2, 2, 2, some 30, some 50, some 80⟩]

/-- Witness for C5 (amended): on `c5wstore` the query and the fold's final
`prev_final` agree on 80. -/
theorem c5_last_end_witness :
    fetch_last_contador_final c5wstore = 80 ∧ chainEnd c5wstore = some (some 80) :=
  c5_last_end c5wstore ⟨2, 2, 2, some 30, some 50, some 80⟩ 80
    (by simp [c5wstore])
    (by intro x hx hne
        rcases List.mem_cons.mp hx with h | h
        · subst h; simp [rowLt, lex3s, Row.key]
        · rcases List.mem_cons.mp h with h2 | h2
          · exact absurd h2 hne
          · simp at h2)
    rfl
    (by norm_num [round2])

/-- The only record with a non-NULL `contador_final` stores 1.234 (more than
two decimals). -/
def c9row : Row := ⟨1, 1, 1, some 0, none, some (617 / 500)⟩

/-- **C9** (counterexample): the query answers `round(1.234, 2) = 1.23`, not
the stored `meterEnd` 1.234 itself. -/
theorem c9_counterexample :
    fetch_last_contador_final [c9row] = 123 / 100 ∧
      c9row.contador_final = some (617 / 500) ∧ (123 / 100 : ℚ) ≠ 617 / 500 := by
  refine ⟨?_, rfl, by norm_num⟩
  norm_num [c9row, fetch_last_contador_final, sortRows, List.insertionSort,
    List.orderedInsert, rowLe, lex3, Row.key, fetchLastSorted, round2]

/-- **C9** (amended): the query returns the `meterEnd` of the most recent
(`(fecha, hora, id)` descending) record having a non-NULL `meterEnd`,
*rounded to 2 decimals*; it returns `0.0` when no record has one, and `0.0`
on the empty record set. -/
theorem c9_last_known_end :
    (∀ (store : List Row) (m : Row) (v : ℚ), m ∈ store →
      m.contador_final = some v →
      (∀ x ∈ store, x ≠ m → x.contador_final ≠ none → rowLt x m) →
      fetch_last_contador_final store = round2 v) ∧
    (∀ store : List Row, (∀ r ∈ store, r.contador_final = none) →
      fetch_last_contador_final store = 0) ∧
    fetch_last_contador_final [] = 0 := by
  refine ⟨?_, ?_, rfl⟩
  · intro store m v hm hcf hmax
    rw [fetch_last_contador_final]
    have hd : (sortRows store).reverse.Pairwise (fun a b => rowLe b a) :=
      List.pairwise_reverse.mpr (sortRows_sorted store)
    have hm' : m ∈ (sortRows store).reverse :=
      List.mem_reverse.mpr ((sortRows_perm store).symm.subset hm)
    exact fetchLastSorted_max hd hm' hcf
      (fun x hx hne => hmax x ((sortRows_perm store).subset (List.mem_reverse.mp hx)) hne)
  · intro store hnone
    rw [fetch_last_contador_final]
    exact fetchLastSorted_none _
      (fun r hr => hnone r ((sortRows_perm store).subset (List.mem_reverse.mp hr)))

/-- Witness for C9 (amended): a one-record store with stored meter end 1.234
answers 1.23, and stores with no stored end answer 0. -/
theorem c9_last_known_end_witness :
    fetch_last_contador_final [c9row] = round2 (617 / 500) ∧
      fetch_last_contador_final [⟨1, 1, 1, some 5, none, none⟩] = 0 :=
  ⟨c9_last_known_end.1 [c9row] c9row (617 / 500) (by simp) rfl
      (by intro x hx hne
          rcases List.mem_cons.mp hx with h | h
          · exact absurd h hne
          · simp at h),
    c9_last_known_end.2.1 [⟨1, 1, 1, some 5, none, none⟩]
      (by intro r hr
          rcases List.mem_cons.mp hr with h | h
          · subst h; rfl
          · simp at h)⟩

/-- A record whose stored `contador_inicial` holds a malformed (non-numeric,
non-NaN) value: the guarded fold derives around it, but the display tail
keeps it and raises. -/
def c7badRec : Rec := ⟨1, 1, 1, .num 5, .bad, .null⟩

/-- **C7** (counterexample): the reconciler does NOT always return
best-effort values — a malformed stored meter value survives the
`where(~isna, calc)` fill (it is not NA) and the unguarded
`contador_final_show - contador_inicial_show` subtraction of line 361
raises, so `aplicar_secuencia_contador` raises on this one-record input. -/
theorem c7_counterexample :
    aplicar_secuencia_contador_full [c7badRec] = Except.error () ∧
      ¬ (∀ df : List Rec, ∃ out, aplicar_secuencia_contador_full df =
          Except.ok out) := by
  have h : aplicar_secuencia_contador_full [c7badRec] = Except.error () := by
    norm_num [aplicar_secuencia_contador_full, aplicar_secuencia_contador, sortRecs,
      List.insertionSort, List.orderedInsert, foldCntr, mapShow, rowShow, showCell,
      cellFloat, c7badRec]
  refine ⟨h, fun hall => ?_⟩
  obtain ⟨out, hout⟩ := hall [c7badRec]
  rw [h] at hout
  exact Except.noConfusion hout

/-- **C7** (amended): the *derivation* treats a malformed stored meter value
exactly as a NULL one — the calc columns agree cell-for-cell — and on every
input whose stored meter cells are free of malformed values (in particular
anything read from the REAL store columns, which hold only NULL or numbers)
the reconciler raises nothing and returns one display row per input row;
but an input carrying a malformed stored meter value makes the unguarded
display tail raise. -/
theorem c7_malformed_handling :
    (∀ (prev : Option (Option ℚ)) (r : Rec) (rs : List Rec),
      calcsOf (foldCntr prev ({ r with contador_inicial := .bad } :: rs)) =
        calcsOf (foldCntr prev ({ r with contador_inicial := .null } :: rs))) ∧
    (∀ (prev : Option (Option ℚ)) (r : Rec) (rs : List Rec),
      calcsOf (foldCntr prev ({ r with contador_final := .bad } :: rs)) =
        calcsOf (foldCntr prev ({ r with contador_final := .null } :: rs))) ∧
    (∀ df : List Rec,
      (∀ r ∈ df, r.contador_inicial ≠ .bad ∧ r.contador_final ≠ .bad) →
      ∃ out, aplicar_secuencia_contador_full df = Except.ok out ∧
        out.length = df.length) ∧
    (∀ (df : List Rec) (r : Rec), r ∈ df →
      r.contador_inicial = .bad ∨ r.contador_final = .bad →
      aplicar_secuencia_contador_full df = Except.error ()) := by
  refine ⟨?_, ?_, ?_, ?_⟩
  · intro prev r rs
    simp [calcsOf, foldCntr, resolveStart, resolveEnd, toValid]
  · intro prev r rs
    simp [calcsOf, foldCntr, resolveStart, resolveEnd, toValid]
  · intro df h
    have hbad : ∀ o ∈ aplicar_secuencia_contador df,
        o.orig.contador_inicial ≠ .bad ∧ o.orig.contador_final ≠ .bad := by
      intro o ho
      have horig : o.orig ∈ sortRecs df := by
        rw [← foldCntr_map_orig none (sortRecs df)]
        exact List.mem_map_of_mem _ ho
      exact h o.orig (sortRecs_perm.subset horig)
    obtain ⟨out, hout, hlen⟩ := mapShow_ok _ hbad
    refine ⟨out, ?_, ?_⟩
    · rw [aplicar_secuencia_contador_full, hout]
    · rw [hlen, aplicar_secuencia_contador, foldCntr_length, sortRecs,
        List.length_insertionSort]
  · intro df r hr hbad
    have hrs : r ∈ sortRecs df := sortRecs_perm.symm.subset hr
    have : ∃ o ∈ aplicar_secuencia_contador df, o.orig = r := by
      have := foldCntr_map_orig none (sortRecs df)
      rw [aplicar_secuencia_contador]
      rw [← this] at hrs
      rcases List.mem_map.mp hrs with ⟨o, ho, ho2⟩
      exact ⟨o, ho, ho2⟩
    obtain ⟨o, ho, horig⟩ := this
    have hnone : rowShow o = none := rowShow_none (by rw [horig]; exact hbad)
    rw [aplicar_secuencia_contador_full, mapShow_none o _ ho hnone]

/-- Record with NULL meter cells used to witness C7 (amended). -/
def c7wrec : Rec := ⟨1, 1, 1, .num 50, .null, .null⟩

/-- Witness for C7 (amended): on a malformed-free one-record input the full
reconciler succeeds with one display row. -/
theorem c7_malformed_handling_witness :
    ∃ out, aplicar_secuencia_contador_full [c7wrec] = Except.ok out ∧
      out.length = [c7wrec].length :=
  c7_malformed_handling.2.2.1 [c7wrec]
    (by intro r hr
        rcases List.mem_cons.mp hr with h | h
        · subst h; exact ⟨by simp [c7wrec], by simp [c7wrec]⟩
        · simp at h)

/-- Stored hour-metered record used for C8: 40 liters, hour meters
100 → 107, 7 hours worked. -/
def c8rec : ERec :=
  ⟨some 40, some (1057 / 100), some 0, some 40, some 100, some 107,
    some 7, some (151 / 100), some 3, some (3170 / 100), some "HOROMETRO"⟩

/-- **C8** (counterexample): the post-hoc edit path persists a record of kind
HOROMETRO whose written hour meters are 100 → 100 (elapsed hours 0, not
strictly positive) — editing `c8rec` with both hour meters set to 100 still
calls `update_distribucion` with those values. -/
theorem c8_counterexample :
    ¬ (∀ (rec : ERec) (litros_in ci_in cf_in hi_in hf_in precio_in : In)
        (tipo_in : Option String) (hi hf : ℚ),
        (editarUpdate rec litros_in ci_in cf_in hi_in hf_in precio_in
            tipo_in).tipo_registro = some "HOROMETRO" →
        (editarUpdate rec litros_in ci_in cf_in hi_in hf_in precio_in
            tipo_in).horometro_inicial = some hi →
        (editarUpdate rec litros_in ci_in cf_in hi_in hf_in precio_in
            tipo_in).horometro_final = some hf →
        0 < hf - hi) := by
  intro h
  have h2 := h c8rec .empty .empty .empty (.num 100) (.num 100) .empty none 100 100
    rfl rfl rfl
  norm_num at h2

/-- **C8** (amended): the creation flow (`registrar_con_horometro`) rejects
every hour-meter pair with non-positive elapsed hours — nothing is persisted
from a failed step, and any persisted hour fields carry strictly positive
hours; but the edit flow (`editar`) persists the newly entered hour-meter
readings even when their rounded difference is non-positive, merely keeping
the previously stored `horas_trabajadas`. -/
theorem c8_hours_validation :
    (∀ gal hi hf : ℚ, hf - hi ≤ 0 → horometroStep gal hi hf = none) ∧
    (∀ (gal hi hf : ℚ) (f : HoroFields),
        horometroStep gal hi hf = some f → 0 < f.horas_trabajadas) ∧
    (∀ (rec : ERec) (litros_in ci_in cf_in precio_in : In)
        (tipo_in : Option String) (hi hf : ℚ), round2 (hf - hi) ≤ 0 →
        (editarUpdate rec litros_in ci_in cf_in (.num hi) (.num hf) precio_in
            tipo_in).horometro_inicial = some hi ∧
        (editarUpdate rec litros_in ci_in cf_in (.num hi) (.num hf) precio_in
            tipo_in).horometro_final = some hf ∧
        (editarUpdate rec litros_in ci_in cf_in (.num hi) (.num hf) precio_in
            tipo_in).horas_trabajadas = rec.horas_trabajadas) := by
  refine ⟨?_, ?_, ?_⟩
  · intro gal hi hf h
    simp only [horometroStep]
    rw [if_pos (round2_nonpos (by linarith))]
  · intro gal hi hf f h
    simp only [horometroStep] at h
    by_cases hle : round2 (hf - hi) ≤ 0
    · rw [if_pos hle] at h
      exact absurd h (by simp)
    · rw [if_neg hle] at h
      have hf2 : f = ⟨hi, hf, round2 (hf - hi), round2 (gal / round2 (hf - hi))⟩ :=
        (Option.some_inj.mp h).symm
      rw [hf2]
      exact lt_of_not_le hle
  · intro rec litros_in ci_in cf_in precio_in tipo_in hi hf h
    have e3 : (editarUpdate rec litros_in ci_in cf_in (.num hi) (.num hf) precio_in
        tipo_in).horas_trabajadas =
        (editarHoras rec.horas_trabajadas rec.consumo_por_gl_h
          (editarVolumen rec litros_in) (some hi) (some hf)).1 := rfl
    refine ⟨rfl, rfl, ?_⟩
    rw [e3, editarHoras_nonpos _ _ _ _ _ h]

/-- Witness for C8 (amended): a 5 → 5 hour-meter pair is rejected by the
creation step, and editing `c8rec` to the pair 100 → 100 keeps the stored 7
hours while writing both readings. -/
theorem c8_hours_validation_witness :
    horometroStep 1 5 5 = none ∧
      (editarUpdate c8rec .empty .empty .empty (.num 100) (.num 100) .empty
          none).horas_trabajadas = c8rec.horas_trabajadas :=
  ⟨c8_hours_validation.1 1 5 5 (by norm_num),
    (c8_hours_validation.2.2 c8rec .empty .empty .empty .empty none 100 100
      (by norm_num [round2])).2.2⟩

/-- One stored row whose `contador_inicial` is 1.234 (more than two decimals)
and whose `contador_final` is NULL. -/
def c10store : List Row := [⟨1, 1, 1, some 10, some (617 / 500), none⟩]

/-- **C10**: a row that backfill needs to fill (a NULL meter field) gets
*both* meter fields written with the resolved calc values; when one of them
was stored, the written value is its own value rounded to 2 decimals — hence
the stored field changes whenever it had more than two decimals. -/
theorem c10_backfill_rewrites (store : List Row) (i : ℕ)
    (hi : i < (sortRows store).length)
    (hone : needsFill ((sortRows store).getD i dRow) = true) :
    ((backfill_contadores store).1.getD i dRow =
      { (sortRows store).getD i dRow with
        contador_inicial :=
          ((aplicar_secuencia_contador ((sortRows store).map
              (readRow ((sortRows store).any fun r =>
                r.litros_despachados.isSome)))).getD i dOut).contador_inicial_calc,
        contador_final :=
          ((aplicar_secuencia_contador ((sortRows store).map
              (readRow ((sortRows store).any fun r =>
                r.litros_despachados.isSome)))).getD i dOut).contador_final_calc }) ∧
    (∀ a : ℚ, ((sortRows store).getD i dRow).contador_inicial = some a →
      ((aplicar_secuencia_contador ((sortRows store).map
          (readRow ((sortRows store).any fun r =>
            r.litros_despachados.isSome)))).getD i dOut).contador_inicial_calc =
        some (round2 a)) ∧
    (∀ b : ℚ, ((sortRows store).getD i dRow).contador_final = some b →
      ((aplicar_secuencia_contador ((sortRows store).map
          (readRow ((sortRows store).any fun r =>
            r.litros_despachados.isSome)))).getD i dOut).contador_final_calc =
        some (round2 b)) ∧
    (∀ a : ℚ, ((sortRows store).getD i dRow).contador_inicial = some a →
      round2 a ≠ a →
      ((backfill_contadores store).1.getD i dRow).contador_inicial ≠ some a) := by
  have hlen : (sortRows store).length =
      (aplicar_secuencia_contador
        ((sortRows store).map
          (readRow ((sortRows store).any fun r =>
            r.litros_despachados.isSome)))).length := by
    rw [aplicar_secuencia_contador, sortRecs_map_readRow, foldCntr_length,
      List.length_map]
  have hrow : (backfill_contadores store).1.getD i dRow =
      { (sortRows store).getD i dRow with
        contador_inicial :=
          ((aplicar_secuencia_contador ((sortRows store).map
              (readRow ((sortRows store).any fun r =>
                r.litros_despachados.isSome)))).getD i dOut).contador_inicial_calc,
        contador_final :=
          ((aplicar_secuencia_contador ((sortRows store).map
              (readRow ((sortRows store).any fun r =>
                r.litros_despachados.isSome)))).getD i dOut).contador_final_calc } := by
    have := applyCalc_getD (sortRows store)
      (aplicar_secuencia_contador
        ((sortRows store).map
          (readRow ((sortRows store).any fun r =>
            r.litros_despachados.isSome)))) i hi hlen
    rw [hone] at this
    simpa using this
  have hci : ∀ a : ℚ, ((sortRows store).getD i dRow).contador_inicial = some a →
      ((aplicar_secuencia_contador ((sortRows store).map
          (readRow ((sortRows store).any fun r =>
            r.litros_despachados.isSome)))).getD i dOut).contador_inicial_calc =
        some (round2 a) := by
    intro a ha
    rw [aplicar_secuencia_contador, sortRecs_map_readRow]
    refine foldCntr_ci_stored _ none i a (by simpa using hi) ?_
    rw [getD_map_readRow _ _ _ hi]
    simp only [readRow]
    rw [ha]
    rfl
  have hcf : ∀ b : ℚ, ((sortRows store).getD i dRow).contador_final = some b →
      ((aplicar_secuencia_contador ((sortRows store).map
          (readRow ((sortRows store).any fun r =>
            r.litros_despachados.isSome)))).getD i dOut).contador_final_calc =
        some (round2 b) := by
    intro b hb
    rw [aplicar_secuencia_contador, sortRecs_map_readRow]
    refine foldCntr_cf_stored _ none i b (by simpa using hi) ?_
    rw [getD_map_readRow _ _ _ hi]
    simp only [readRow]
    rw [hb]
    rfl
  refine ⟨hrow, hci, hcf, ?_⟩
  intro a ha hra
  rw [hrow]
  simp only [hci a ha]
  intro heq
  exact hra (Option.some_inj.mp heq)

/-- Witness for C10: backfilling `c10store` rewrites the stored 1.234 meter
start to 1.23, changing it. -/
theorem c10_backfill_rewrites_witness :
    ((backfill_contadores c10store).1.getD 0 dRow).contador_inicial ≠
      some (617 / 500) :=
  (c10_backfill_rewrites c10store 0
      (by norm_num [c10store, sortRows, List.insertionSort, List.orderedInsert])
      (by norm_num [c10store, sortRows, List.insertionSort, List.orderedInsert,
        needsFill])).2.2.2
    (617 / 500)
    (by norm_num [c10store, sortRows, List.insertionSort, List.orderedInsert])
    (by norm_num [round2])

end Hyundai
